import Mathlib

/-!
Shallow embedding of the reusable reactive-state layer of this repository:
the todo store (`useTodos` in `src/App.tsx`), the persisted-value primitive
(`useLocalStorage`) and the remote fetch hook (`useFetch`), both in the
custom-hooks page module.
-/

/-- JS `String.prototype.trim()` modelled structurally: drop leading and
trailing whitespace characters from the character list. (Lean core's
`String.trim` is defined by well-founded recursion on byte positions and does
not reduce definitionally; this structural version does, and agrees with the
host trim on the whitespace characters involved here.) -/
def trimString (s : String) : String :=
  ⟨((s.data.dropWhile Char.isWhitespace).reverse.dropWhile Char.isWhitespace).reverse⟩

/-- A todo record, from `interface Todo` in `src/App.tsx`:
`id`, `text`, `completed`. -/
structure Todo where
  id : String
  text : String
  completed : Bool
  deriving DecidableEq

/-- `addTodo(text)` of `useTodos`: no-op if `text.trim()` is empty, otherwise
appends `{ id: Date.now().toString(), text: text.trim(), completed: false }`.
`now` stands for the value of `Date.now()` at the call. -/
def addTodo (todos : List Todo) (text : String) (now : Nat) : List Todo :=
  if trimString text = "" then todos
  else todos ++ [{ id := toString now, text := trimString text, completed := false }]

/-- `toggleTodo(id)` of `useTodos`: maps over the collection, flipping
`completed` on the record whose `id` matches. -/
def toggleTodo (todos : List Todo) (id : String) : List Todo :=
  todos.map fun todo => if todo.id = id then { todo with completed := !todo.completed } else todo

/-- `editTodo(id, newText)` of `useTodos`: no-op if `newText.trim()` is empty,
otherwise maps over the collection replacing `text` with `newText.trim()` on
the record whose `id` matches. -/
def editTodo (todos : List Todo) (id : String) (newText : String) : List Todo :=
  if trimString newText = "" then todos
  else todos.map fun todo => if todo.id = id then { todo with text := trimString newText } else todo

/-- `deleteTodo(id)` of `useTodos`: keeps the records whose `id` differs. -/
def deleteTodo (todos : List Todo) (id : String) : List Todo :=
  todos.filter fun todo => todo.id != id

/-- `clearCompleted()` of `useTodos`: keeps the records that are not completed. -/
def clearCompleted (todos : List Todo) : List Todo :=
  todos.filter fun todo => !todo.completed

/-- The derived `stats` object of `useTodos`. -/
structure Stats where
  total : Nat
  completed : Nat
  active : Nat
  deriving DecidableEq

/-- `stats` as computed in `useTodos`: `total` is the length, `completed` and
`active` are lengths of the two filters. -/
def stats (todos : List Todo) : Stats :=
  { total := todos.length
    completed := (todos.filter fun todo => todo.completed).length
    active := (todos.filter fun todo => !todo.completed).length }

/-- One mutating call of the `useTodos` API. -/
inductive Op where
  | add (text : String) (now : Nat)
  | toggle (id : String)
  | edit (id : String) (newText : String)
  | delete (id : String)
  | clearCompleted

/-- Dispatch of one mutating call to the corresponding operation. -/
def applyOp (todos : List Todo) (op : Op) : List Todo :=
  match op with
  | .add text now => addTodo todos text now
  | .toggle id => toggleTodo todos id
  | .edit id newText => editTodo todos id newText
  | .delete id => deleteTodo todos id
  | .clearCompleted => clearCompleted todos

/-- A sequence of mutating calls applied in call order. -/
def applyOps (todos : List Todo) (ops : List Op) : List Todo :=
  ops.foldl applyOp todos

/-- The per-record transformation performed by a non-empty `editTodo(id, newText)`:
the matching record gets the trimmed text, every other record is untouched;
when the new text trims empty nothing changes. -/
def editOne (id : String) (newText : String) (todo : Todo) : Todo :=
  if trimString newText ≠ "" ∧ todo.id = id then { todo with text := trimString newText } else todo

/-- Serialized text in durable key/value storage: either the `JSON.stringify`
serialization of a value, or malformed text that `JSON.parse` rejects. -/
inductive StoredText (α : Type) where
  | valid (value : α)
  | malformed
  deriving DecidableEq

/-- Host `JSON.parse`: succeeds exactly on well-formed serializations; a throw
on malformed text is modelled as `Except.error`. -/
def jsonParse {α : Type} : StoredText α → Except String α
  | .valid value => .ok value
  | .malformed => .error "SyntaxError"

/-- Host `JSON.stringify`: always produces well-formed text. -/
def jsonStringify {α : Type} (value : α) : StoredText α :=
  .valid value

/-- Durable key/value storage (`localStorage`): a partial map from string keys
to stored text. -/
abbrev Storage (α : Type) : Type :=
  String → Option (StoredText α)

/-- The `useState` initializer of `useLocalStorage` (custom-hooks page module):
read `key`, parse the stored text; the surrounding try/catch makes absence and
any parse error fall back to `initialValue`. -/
def useLocalStorageInit {α : Type} (key : String) (initialValue : α) (storage : Storage α) : α :=
  match storage key with
  | none => initialValue
  | some item =>
    match jsonParse item with
    | .ok value => value
    | .error _ => initialValue

/-- The `useState` initializer of `useTodos` (`src/App.tsx`): read key
`"todos"`; absence yields the empty collection, but there is no try/catch, so
a `JSON.parse` failure on malformed stored text propagates as a thrown
failure (`Except.error`). -/
def useTodosInit (storage : Storage (List Todo)) : Except String (List Todo) :=
  match storage "todos" with
  | none => .ok []
  | some item => jsonParse item

/-- A storage whose `"todos"` entry holds malformed text. -/
def malformedTodosStorage : Storage (List Todo) :=
  fun key => if key = "todos" then some .malformed else none

/-- The todo store as the pair of its in-memory collection and the backing
storage (`useTodos` state plus `localStorage`). -/
structure TodoStore where
  todos : List Todo
  storage : Storage (List Todo)

/-- One mutating call on the store: the state update followed by the
persistence effect (the `useEffect` in `useTodos` writes
`JSON.stringify(todos)` under key `"todos"` whenever `todos` changes). -/
def storeApply (s : TodoStore) (op : Op) : TodoStore :=
  let todos := applyOp s.todos op
  { todos := todos
    storage := fun key => if key = "todos" then some (jsonStringify todos) else s.storage key }

/-- Outcome of one network request as seen by `fetchData` in `useFetch`:
either the parsed JSON body of an ok response, or an error message (non-ok
status, network failure or parse failure). -/
inductive FetchOutcome where
  | success (json : String)
  | failure (err : String)
  deriving DecidableEq

/-- Observable state of `useFetch` plus bookkeeping: `gen` numbers the effect
runs — each `useEffect` run creates a fresh `isMounted` flag and the cleanup
on a key change sets the previous run's flag to false, so exactly the request
tagged with the current generation may still write state. `requests` logs the
generation tag of every network request issued. -/
structure FetchState where
  data : Option String
  error : Option String
  loading : Bool
  gen : Nat
  requests : List Nat
  deriving DecidableEq

/-- Initial `useFetch` state: `data = null`, `error = null`, `loading = true`,
before the mount effect runs. -/
def initFetch : FetchState :=
  { data := none, error := none, loading := true, gen := 0, requests := [] }

/-- A key change (`url` or serialized `options` changed; the mount effect is
the first such run): the previous effect's cleanup invalidates its `isMounted`
flag (modelled by bumping `gen`), then the new effect's `fetchData` runs
synchronously up to the await: `setLoading(true)` and exactly one `fetch` is
issued, tagged with the new generation. `data` and `error` are not touched. -/
def keyChange (s : FetchState) : FetchState :=
  { s with gen := s.gen + 1, loading := true, requests := s.requests ++ [s.gen + 1] }

/-- Resolution of the request tagged `g`: every state write in `fetchData`
after the await is guarded by that run's `isMounted` flag, so a request whose
generation is no longer current changes nothing. A current success stores the
payload, clears `error` and ends loading; a current failure stores the error,
clears `data` and ends loading. -/
def resolveFetch (s : FetchState) (g : Nat) (o : FetchOutcome) : FetchState :=
  if g = s.gen then
    match o with
    | .success json => { s with data := some json, error := none, loading := false }
    | .failure err => { s with error := some err, data := none, loading := false }
  else s

/-- An event in the life of one `useFetch` instance. -/
inductive FetchEvent where
  | keyChange
  | resolve (g : Nat) (o : FetchOutcome)

/-- Apply one event. -/
def fetchStep (s : FetchState) (e : FetchEvent) : FetchState :=
  match e with
  | .keyChange => keyChange s
  | .resolve g o => resolveFetch s g o

/-- Run a sequence of events from the initial state. -/
def runFetch (events : List FetchEvent) : FetchState :=
  events.foldl fetchStep initFetch

/-- The mutual-exclusion property of `data` and `error`. -/
def dataErrorExclusive (s : FetchState) : Prop :=
  s.data = none ∨ s.error = none

theorem filter_completed_split (todos : List Todo) :
    (todos.filter fun todo => !todo.completed).length
      + (todos.filter fun todo => todo.completed).length = todos.length := by
  induction todos with
  | nil => rfl
  | cons t ts ih =>
    cases h : t.completed <;> simp [List.filter_cons, h] <;> omega

/-- C1: after any sequence of mutating calls starting from any collection,
the derived stats satisfy `active + completed = total`. -/
theorem stats_invariant_after_ops (init : List Todo) (ops : List Op) :
    (stats (applyOps init ops)).active + (stats (applyOps init ops)).completed
      = (stats (applyOps init ops)).total := by
  simpa [stats] using filter_completed_split (applyOps init ops)

/-- C8: `addTodo` leaves the collection unchanged when the text trims empty;
otherwise it grows the collection by exactly one, the appended record is
`{id := toString now, text := trimString text, completed := false}` at the end,
and the original records are left in place. -/
theorem addTodo_spec (todos : List Todo) (text : String) (now : Nat) :
    (trimString text = "" → addTodo todos text now = todos) ∧
    (trimString text ≠ "" →
      (addTodo todos text now).length = todos.length + 1 ∧
      (addTodo todos text now).getLast? =
        some { id := toString now, text := trimString text, completed := false } ∧
      (addTodo todos text now).take todos.length = todos) := by
  constructor
  · intro h
    simp [addTodo, h]
  · intro h
    refine ⟨?_, ?_, ?_⟩
    · simp [addTodo, h]
    · simp [addTodo, h]
    · simp [addTodo, h, List.take_left]

/-- C8 witness: concrete instances of `addTodo_spec` on an all-space text and
on "buy milk". -/
theorem addTodo_spec_witness :
    addTodo [] "   " 5 = [] ∧
    ((addTodo [⟨"1", "a", true⟩] "buy milk" 5).length = 2 ∧
      (addTodo [⟨"1", "a", true⟩] "buy milk" 5).getLast? =
        some { id := toString 5, text := trimString "buy milk", completed := false } ∧
      (addTodo [⟨"1", "a", true⟩] "buy milk" 5).take 1 = [⟨"1", "a", true⟩]) :=
  ⟨(addTodo_spec [] "   " 5).1 (by decide),
   (addTodo_spec [⟨"1", "a", true⟩] "buy milk" 5).2 (by decide)⟩

/-- C9: toggling the same id twice returns the collection to its original
value (toggle is an involution). -/
theorem toggleTodo_involution (todos : List Todo) (id : String) :
    toggleTodo (toggleTodo todos id) id = todos := by
  induction todos with
  | nil => rfl
  | cons t ts ih =>
    cases t with
    | mk tid ttext tdone =>
      by_cases h : tid = id <;> simp_all [toggleTodo, h]

/-- C10: `editTodo` acts elementwise as `editOne`: the collection keeps its
length and order, the per-record map preserves `id` and `completed` on every
record, it rewrites only the text of the matching record (to the trimmed new
text), and when the new text trims empty the call is a no-op. -/
theorem editTodo_frame (todos : List Todo) (id : String) (newText : String) :
    (trimString newText = "" → editTodo todos id newText = todos) ∧
    editTodo todos id newText = todos.map (editOne id newText) ∧
    (editTodo todos id newText).length = todos.length ∧
    (∀ todo : Todo, (editOne id newText todo).id = todo.id ∧
      (editOne id newText todo).completed = todo.completed) := by
  refine ⟨fun h => by simp [editTodo, h], ?_, ?_, ?_⟩
  · by_cases h : trimString newText = ""
    · have hfun : ∀ todo ∈ todos, editOne id newText todo = todo := fun todo _ => by
        simp [editOne, h]
      simp [editTodo, h, List.map_congr_left hfun]
    · simp only [editTodo, if_neg h]
      refine List.map_congr_left fun todo _ => ?_
      simp [editOne, h]
  · by_cases h : trimString newText = "" <;> simp [editTodo, h]
  · intro todo
    unfold editOne
    split <;> simp

/-- C10 witness: concrete instances of `editTodo_frame`, one discharging the
empty-trim no-op hypothesis, one using the elementwise description. -/
theorem editTodo_frame_witness :
    editTodo [⟨"1", "a", false⟩] "1" "   " = [⟨"1", "a", false⟩] ∧
    editTodo [⟨"1", "a", false⟩] "1" " b " =
      [⟨"1", "a", false⟩].map (editOne "1" " b ") :=
  ⟨(editTodo_frame [⟨"1", "a", false⟩] "1" "   ").1 (by decide),
   (editTodo_frame [⟨"1", "a", false⟩] "1" " b ").2.1⟩

/-- C7: two `addTodo` calls sharing the same `Date.now()` millisecond tick
produce two records with the same id `"1000"` — the time-based id generation
collides within a tick, violating pairwise distinctness. -/
theorem addTodo_same_tick_id_collision :
    (addTodo (addTodo [] "first" 1000) "second" 1000).length = 2 ∧
    ((addTodo (addTodo [] "first" 1000) "second" 1000).getD 0 ⟨"", "", false⟩).id
      = ((addTodo (addTodo [] "first" 1000) "second" 1000).getD 1 ⟨"", "", false⟩).id := by
  constructor <;> rfl

/-- C3: after any single mutating call on the store, initializing a fresh
todo collection from the store's storage yields exactly the just-mutated
in-memory collection (persistence round-trip). -/
theorem store_persistence_roundtrip (s : TodoStore) (op : Op) :
    useTodosInit (storeApply s op).storage = .ok (storeApply s op).todos := by
  simp [useTodosInit, storeApply, jsonStringify, jsonParse]

/-- C4 counterexample: with malformed text stored under `"todos"`, the
`useTodos` initializer propagates the `JSON.parse` failure as a thrown
failure instead of falling back to the default empty collection. -/
theorem useTodosInit_throws_on_malformed :
    useTodosInit malformedTodosStorage = .error "SyntaxError" := rfl

/-- C4 amended: the generic persisted-value initializer returns the default on
absence and on malformed stored text, never a thrown failure; the todo store
initializer returns the default empty collection on absence only — on
malformed stored text it propagates the parse failure. -/
theorem persisted_init_error_handling {α : Type} (key : String) (d : α)
    (storage : Storage α) (tstorage : Storage (List Todo)) :
    (storage key = none → useLocalStorageInit key d storage = d) ∧
    (storage key = some .malformed → useLocalStorageInit key d storage = d) ∧
    (tstorage "todos" = none → useTodosInit tstorage = .ok []) ∧
    (tstorage "todos" = some .malformed → useTodosInit tstorage = .error "SyntaxError") := by
  refine ⟨fun h => ?_, fun h => ?_, fun h => ?_, fun h => ?_⟩ <;>
    simp [useLocalStorageInit, useTodosInit, jsonParse, h]

/-- C4 witness: concrete instances of `persisted_init_error_handling` on an
empty storage and on an all-malformed storage. -/
theorem persisted_init_error_handling_witness :
    useLocalStorageInit "k" 7 (fun _ => none) = 7 ∧
    useLocalStorageInit "k" 7 (fun _ => some .malformed) = 7 ∧
    useTodosInit (fun _ => none) = .ok [] ∧
    useTodosInit (fun _ => some .malformed) = .error "SyntaxError" :=
  ⟨(persisted_init_error_handling "k" 7 (fun _ => none) (fun _ => none)).1 rfl,
   (persisted_init_error_handling "k" 7 (fun _ => some .malformed) (fun _ => none)).2.1 rfl,
   (persisted_init_error_handling "k" 7 (fun _ => none) (fun _ => none)).2.2.1 rfl,
   (persisted_init_error_handling "k" 7 (fun _ => none) (fun _ => some .malformed)).2.2.2 rfl⟩

/-- C5 counterexample: a key change does not clear a prior error — starting
from a state holding an error, after `keyChange` the error is still there
(it is only ever cleared by a successful resolution). -/
theorem keyChange_keeps_prior_error :
    (keyChange { data := none, error := some "HTTP error! Status: 500",
                 loading := false, gen := 1, requests := [1] }).error
      = some "HTTP error! Status: 500" := rfl

/-- C5 amended: on each key change, `loading` is set to `true` and exactly one
network request is issued (tagged with the new generation); the prior `error`
and `data` are retained, not cleared. -/
theorem keyChange_spec (s : FetchState) :
    (keyChange s).loading = true ∧
    (keyChange s).requests.length = s.requests.length + 1 ∧
    (keyChange s).requests = s.requests ++ [(keyChange s).gen] ∧
    (keyChange s).error = s.error ∧
    (keyChange s).data = s.data := by
  simp [keyChange]

/-- C2: if the key changes twice and the second request resolves first, the
first request's later resolution leaves the state completely unchanged, and
the final `data`/`error`/`loading` reflect only the second request's
outcome. -/
theorem stale_resolution_no_effect (s : FetchState) (o1 o2 : FetchOutcome) :
    resolveFetch
        (resolveFetch (keyChange (keyChange s)) (keyChange (keyChange s)).gen o2)
        (keyChange s).gen o1
      = resolveFetch (keyChange (keyChange s)) (keyChange (keyChange s)).gen o2 ∧
    (resolveFetch (keyChange (keyChange s)) (keyChange (keyChange s)).gen o2).data
      = (match o2 with | .success json => some json | .failure _ => none) ∧
    (resolveFetch (keyChange (keyChange s)) (keyChange (keyChange s)).gen o2).error
      = (match o2 with | .success _ => none | .failure err => some err) ∧
    (resolveFetch (keyChange (keyChange s)) (keyChange (keyChange s)).gen o2).loading
      = false := by
  cases o2 <;> cases o1 <;>
    simp [keyChange, resolveFetch]

theorem fetchStep_preserves_exclusive (s : FetchState) (e : FetchEvent)
    (h : dataErrorExclusive s) : dataErrorExclusive (fetchStep s e) := by
  cases e with
  | keyChange => simpa [fetchStep, keyChange, dataErrorExclusive] using h
  | resolve g o =>
    by_cases hg : g = s.gen
    · cases o with
      | success json => simp [fetchStep, resolveFetch, hg, dataErrorExclusive]
      | failure err => simp [fetchStep, resolveFetch, hg, dataErrorExclusive]
    · simpa [fetchStep, resolveFetch, hg] using h

theorem foldl_fetchStep_exclusive (events : List FetchEvent) (s : FetchState)
    (h : dataErrorExclusive s) : dataErrorExclusive (events.foldl fetchStep s) := by
  induction events generalizing s with
  | nil => exact h
  | cons e es ih => exact ih _ (fetchStep_preserves_exclusive s e h)

/-- C6: in every state reachable by any sequence of key changes and request
resolutions from the initial `useFetch` state, `data` and `error` are never
both set. -/
theorem fetch_data_error_mutually_exclusive (events : List FetchEvent) :
    (runFetch events).data = none ∨ (runFetch events).error = none :=
  foldl_fetchStep_exclusive events initFetch (Or.inl rfl)
